import Mathlib

/-!
Verification of the image-localization engine of the ImageProccessing repository
(header `src/ImageProccessing.h`, class `IP`).

The embedding is shallow: C++ `int` becomes `ℤ`, `double`/`float` become `ℚ`
(exact arithmetic in place of IEEE), images become width/height plus a pixel
function, and a C++ exception escaping a function is an `Except.error`.
External OpenCV routines that the repository calls but does not define
(`cv::resize` pixel content, `cv::ORB`, `cv::findHomography`) are supplied as
explicit collaborator parameters through the `CV` structure; routines whose
behaviour the spec pins down (template correlation, brute-force Hamming
matching, tokenisation, `std::stod`) are modelled concretely from the spec's
description, marked `Modelled from the spec:` below.
-/

namespace ImageProccessing

/-- An in-memory image: a rectangular grid of pixel samples with known
width (`cols`) and height (`rows`).  Pixel samples are exact rationals. -/
structure Image where
  cols : ℕ
  rows : ℕ
  px : ℕ → ℕ → ℚ

/-- The `cv::Rect` type: axis-aligned box with integer origin and extent. -/
structure Rect where
  x : ℤ
  y : ℤ
  w : ℤ
  h : ℤ
deriving DecidableEq, Repr

/-- The `cv::Size` type: integer width and height. -/
structure Size where
  w : ℤ
  h : ℤ
deriving DecidableEq, Repr

/-- C++ `static_cast<int>` applied to a `double`: truncation toward zero. -/
def truncInt (q : ℚ) : ℤ :=
  if q < 0 then -(⌊-q⌋) else ⌊q⌋

/-- The `std::clamp(v, 0, 256)` call as used on `minMatchScore` in both
`findImageInImageORB` overloads. -/
def clampScore (m : ℤ) : ℤ :=
  min (max m 0) 256

/-! ### Keyphrase ROI parser (`IP::getRoiFromKeyphrase`) -/

/-- Modelled from the spec: `std::stod` on decimal literals.  Parses an
optional sign followed by digits with an optional fractional part, ignoring
any trailing non-numeric characters; returns `none` when no conversion can be
performed (the case in which `std::stod` throws `std::invalid_argument`).
Exotic forms the repository never feeds it (hex, exponents, inf/nan) are out
of scope. -/
def stod (s : String) : Option ℚ :=
  let cs := s.toList.dropWhile (fun c => c.isWhitespace)
  let signAndRest : ℚ × List Char :=
    match cs with
    | '+' :: rest => (1, rest)
    | '-' :: rest => (-1, rest)
    | _ => (1, cs)
  let intPart := signAndRest.2.takeWhile (fun c => c.isDigit)
  let afterInt := signAndRest.2.dropWhile (fun c => c.isDigit)
  let digitsToNat : List Char → ℕ := fun ds =>
    ds.foldl (fun a c => a * 10 + (c.toNat - 48)) 0
  match afterInt with
  | '.' :: rest =>
    let fracPart := rest.takeWhile (fun c => c.isDigit)
    if intPart = [] ∧ fracPart = [] then none
    else some (signAndRest.1 *
      ((digitsToNat intPart : ℚ) + (digitsToNat fracPart : ℚ) / (10 ^ fracPart.length)))
  | _ =>
    if intPart = [] then none
    else some (signAndRest.1 * (digitsToNat intPart : ℚ))

/-- The `parseFraction` lambda of `getRoiFromKeyphrase`: split at the first
`/` and divide the two `std::stod` results, else a single `std::stod`.
`none` means the exception from `std::stod` escapes. -/
def parseFraction (s : String) : Option ℚ :=
  let cs := s.toList
  match cs.findIdx? (fun c => c = '/') with
  | some pos => do
    let n ← stod ⟨cs.take pos⟩
    let d ← stod ⟨cs.drop (pos + 1)⟩
    return n / d
  | none => stod s

/-- Accumulator-based splitter behind `tokenize`: `acc` holds the reversed
characters of the token being read. -/
def tokenizeAux : List Char → List Char → List String
  | [], acc => if acc = [] then [] else [String.mk acc.reverse]
  | c :: cs, acc =>
    if c.isWhitespace then
      if acc = [] then tokenizeAux cs []
      else String.mk acc.reverse :: tokenizeAux cs []
    else
      tokenizeAux cs (c :: acc)

/-- Modelled from the spec: `std::istringstream` extraction with `>>`, which
yields the maximal whitespace-delimited tokens of the phrase. -/
def tokenize (s : String) : List String :=
  tokenizeAux s.toList []

/-- Outcome of the token-consuming loop of `getRoiFromKeyphrase`: the loop
ran off the end of the stream (`completed`, final clamp still to come), the
invalid-direction branch returned from the whole function (`aborted`), or a
`std::stod` exception escaped (`raised`). -/
inductive ParseOut where
  | completed (roi : Rect)
  | aborted (r : Rect)
  | raised (msg : String)
deriving DecidableEq, Repr

/-- The `while (ss >> direction >> fractionStr)` loop of
`getRoiFromKeyphrase`, one step per extracted (direction, fraction) pair; a
trailing token that cannot be paired leaves the loop without being applied. -/
def applyPairs (size : Size) : List String → Rect → ParseOut
  | [], roi => .completed roi
  | [_], roi => .completed roi
  | d :: f :: rest, roi =>
    match parseFraction f with
    | none => .raised "stod"
    | some fraction =>
      let width := size.w
      let height := size.h
      if d = "right" then
        let newWidth := truncInt ((width : ℚ) * fraction)
        applyPairs size rest ⟨width - newWidth, roi.y, newWidth, roi.h⟩
      else if d = "left" then
        let newWidth := truncInt ((width : ℚ) * fraction)
        applyPairs size rest ⟨roi.x, roi.y, newWidth, roi.h⟩
      else if d = "bottom" then
        let newHeight := truncInt ((height : ℚ) * fraction)
        applyPairs size rest ⟨roi.x, height - newHeight, roi.w, newHeight⟩
      else if d = "top" then
        let newHeight := truncInt ((height : ℚ) * fraction)
        applyPairs size rest ⟨roi.x, roi.y, roi.w, newHeight⟩
      else if d = "center" then
        let newWidth := truncInt ((width : ℚ) * fraction)
        let newHeight := truncInt ((height : ℚ) * fraction)
        applyPairs size rest
          ⟨(width - newWidth).tdiv 2, (height - newHeight).tdiv 2, newWidth, newHeight⟩
      else
        .aborted ⟨0, 0, width, height⟩

/-- The final clamp of `getRoiFromKeyphrase` (origin floored at 0, then
extent capped against the image size measured from the updated origin). -/
def clampRoi (size : Size) (roi : Rect) : Rect :=
  let x := if 0 < roi.x then roi.x else 0
  let y := if 0 < roi.y then roi.y else 0
  let w := if roi.w < size.w - x then roi.w else size.w - x
  let h := if roi.h < size.h - y then roi.h else size.h - y
  ⟨x, y, w, h⟩

/-- Turning the loop outcome into the function result: a completed loop is
clamped, the invalid-direction early return is not, an escaped exception
propagates. -/
def finishLoop (size : Size) : ParseOut → Except String Rect
  | .completed roi => .ok (clampRoi size roi)
  | .aborted r => .ok r
  | .raised msg => .error msg

/-- Embeds `IP::getRoiFromKeyphrase`. -/
def getRoiFromKeyphrase (keyphrase : String) (size : Size) : Except String Rect :=
  if keyphrase = "default" then
    .ok ⟨0, 0, size.w, size.h⟩
  else
    finishLoop size (applyPairs size (tokenize keyphrase) ⟨0, 0, size.w, size.h⟩)

/-! ### Feature matching (`IP::findImageInImageORB`, both overloads) -/

/-- A 2D point with rational coordinates (`cv::Point2f`). -/
abbrev Point := ℚ × ℚ

/-- A binary descriptor, compared under Hamming distance. -/
abbrev Desc := List Bool

/-- The `cv::DMatch` record, restricted to the fields the code reads; Hamming
distances are natural numbers. -/
structure DMatch where
  queryIdx : ℕ
  trainIdx : ℕ
  dist : ℕ
deriving DecidableEq, Repr

/-- A 3×3 projective transform (the homography matrix), row-major. -/
structure Mat3 where
  a : ℚ
  b : ℚ
  c : ℚ
  d : ℚ
  e : ℚ
  f : ℚ
  g : ℚ
  p : ℚ
  q : ℚ
deriving DecidableEq, Repr

/-- The external OpenCV collaborators the header calls but does not define:
`resize` is `cv::resize` (pixel content left to the collaborator), `cvtGray`
is `cv::cvtColor(..., COLOR_BGR2GRAY)`, `orb` is
`cv::ORB::create(limit)->detectAndCompute`, and `findHomography` is
`cv::findHomography(..., cv::RANSAC)` with `none` standing for an empty
result matrix. -/
structure CV where
  resize : Image → ℚ → Image
  cvtGray : Image → Image
  orb : ℤ → Image → List Point × List Desc
  findHomography : List (Point × Point) → Option Mat3

/-- Hamming distance between binary descriptors. -/
def hamming (a b : Desc) : ℕ :=
  ((a.zip b).filter (fun pr => pr.1 != pr.2)).length

/-- Index of the descriptor in `pool` nearest to `q` under Hamming
distance, ties resolved toward the smaller index. -/
def nearestIdx (q : Desc) (pool : List Desc) : ℕ :=
  (List.range pool.length).foldl
    (fun best i =>
      if hamming q (pool.getD i []) < hamming q (pool.getD best []) then i else best) 0

/-- Modelled from the spec: cross-check brute-force matching,
`cv::BFMatcher(cv::NORM_HAMMING, true)` — each query descriptor is paired
with its nearest train descriptor, and the pair is kept only when it is
mutually nearest. -/
def bfMatchCross (query train : List Desc) : List DMatch :=
  if train.isEmpty then [] else
  (List.range query.length).filterMap (fun i =>
    let j := nearestIdx (query.getD i []) train
    if nearestIdx (train.getD j []) query = i then
      some ⟨i, j, hamming (query.getD i []) (train.getD j [])⟩
    else none)

/-- The smallest distance among `matchList` (`std::min_element` over the
match distances; 0 for the empty list, a case the guards rule out). -/
def minDistOf (matchList : List DMatch) : ℚ :=
  ((matchList.map (fun m => (m.dist : ℚ))).min?).getD 0

/-- The good-match filter shared verbatim by both `findImageInImageORB`
overloads: `maxAcceptableDistance = minDistance + minMatchScore/256*256`
(float arithmetic, here exact), keeping distances at or below it.  The
argument is the already-clamped `minMatchScore`. -/
def goodMatchesOf (matchList : List DMatch) (minMatchScore : ℤ) : List DMatch :=
  let maxAcceptableDistance := minDistOf matchList + ((minMatchScore : ℚ) / 256 * 256)
  matchList.filter (fun m => decide ((m.dist : ℚ) ≤ maxAcceptableDistance))

/-- Embeds `cv::perspectiveTransform` on a single point: projective application of
the matrix; the `w = 0` pole falls to ℚ's 0-valued division. -/
def perspectivePoint (m : Mat3) (pt : Point) : Point :=
  let w := m.g * pt.1 + m.p * pt.2 + m.q
  ((m.a * pt.1 + m.b * pt.2 + m.c) / w, (m.d * pt.1 + m.e * pt.2 + m.f) / w)

/-- Modelled from the spec: `cv::boundingRect` of floating-point points —
the integer-aligned box containing them (floored origin, ceiled far
corner). -/
def boundingRect : List Point → Rect
  | [] => ⟨0, 0, 0, 0⟩
  | pt :: ps =>
    let minx := ps.foldl (fun acc r => min acc r.1) pt.1
    let miny := ps.foldl (fun acc r => min acc r.2) pt.2
    let maxx := ps.foldl (fun acc r => max acc r.1) pt.1
    let maxy := ps.foldl (fun acc r => max acc r.2) pt.2
    ⟨⌊minx⌋, ⌊miny⌋, ⌈maxx⌉ - ⌊minx⌋, ⌈maxy⌉ - ⌊miny⌋⟩

/-- Embeds `IP::isAspectRatioClose`: the rect's aspect ratio, or its inverse (for
90°-rotated matches), within `tolerance` of the reference image's. -/
def isAspectRatioClose (rect : Rect) (smallImage : Image) (tolerance : ℚ) : Bool :=
  let rectAspectRatio := (rect.w : ℚ) / (rect.h : ℚ)
  let rectRotatedAspectRatio := (rect.h : ℚ) / (rect.w : ℚ)
  let smallImageAspectRatio := (smallImage.cols : ℚ) / (smallImage.rows : ℚ)
  decide (|rectAspectRatio - smallImageAspectRatio| ≤ tolerance) ||
    decide (|rectRotatedAspectRatio - smallImageAspectRatio| ≤ tolerance)

/-- Embeds `IP::computeKeypointsAndDescriptors`: the adaptive keypoint budget
`std::clamp(int(area*0.005), 500, INT_MAX)` fed to the ORB collaborator. -/
def computeKeypointsAndDescriptors (cv : CV) (image : Image) : List Point × List Desc :=
  let imageArea : ℤ := (image.cols : ℤ) * (image.rows : ℤ)
  let limit := min (max (truncInt ((imageArea : ℚ) * (5 / 1000))) 500) 2147483647
  cv.orb limit image

/-- The shared downscale step: working copies of both images, resized when
`scale ≠ 1.0`. -/
def scaleCopies (cv : CV) (largeImage smallImage : Image) (scale : ℚ) : Image × Image :=
  if scale ≠ 1 then (cv.resize largeImage scale, cv.resize smallImage scale)
  else (largeImage, smallImage)

/-- The all-zero rectangle, the "not found" sentinel. -/
def zeroRect : Rect := ⟨0, 0, 0, 0⟩

/-- First overload of `IP::findImageInImageORB`: extracts keypoints and
descriptors internally, throws on an out-of-range scale, and ends with the
aspect-ratio check only (no bounds check).  `debug` only drives
visualization. -/
def findImageInImageORB (cv : CV) (largeImage smallImage : Image)
    (minMatchScore : ℤ) (scale : ℚ) (debug : Bool) : Except String Rect :=
  if scale ≤ 0 ∨ 1 < scale then .error "Scale must be between 0 and 1." else
  let m := clampScore minMatchScore
  let copies := scaleCopies cv largeImage smallImage scale
  let kdL := computeKeypointsAndDescriptors cv copies.1
  let kdS := computeKeypointsAndDescriptors cv copies.2
  if kdL.2.isEmpty ∨ kdS.2.isEmpty then .ok zeroRect else
  let matchList := bfMatchCross kdS.2 kdL.2
  if matchList.isEmpty then .ok zeroRect else
  let goodMatches := goodMatchesOf matchList m
  if goodMatches.length < 4 then .ok zeroRect else
  let pointsSmall := goodMatches.map (fun mt => kdS.1.getD mt.queryIdx (0, 0))
  let pointsLarge := goodMatches.map (fun mt => kdL.1.getD mt.trainIdx (0, 0))
  match cv.findHomography (pointsSmall.zip pointsLarge) with
  | none => .ok zeroRect
  | some hom =>
    let smallCorners : List Point :=
      [(0, 0), ((copies.2.cols : ℚ), 0), ((copies.2.cols : ℚ), (copies.2.rows : ℚ)),
        (0, (copies.2.rows : ℚ))]
    let br := boundingRect (smallCorners.map (perspectivePoint hom))
    if isAspectRatioClose br smallImage (1 / 5) then .ok br else .ok zeroRect

/-- Second overload of `IP::findImageInImageORB`: takes precomputed
keypoints and descriptors, has no scale parameter, and bounds-checks the
bounding rectangle against the haystack before the aspect-ratio check. -/
def findImageInImageORBPre (cv : CV) (largeImage smallImage : Image)
    (keypointsLarge : List Point) (descriptorsLarge : List Desc)
    (keypointsSmall : List Point) (descriptorsSmall : List Desc)
    (minMatchScore : ℤ) (debug : Bool) : Rect :=
  let m := clampScore minMatchScore
  if descriptorsLarge.isEmpty ∨ descriptorsSmall.isEmpty then zeroRect else
  let matchList := bfMatchCross descriptorsSmall descriptorsLarge
  if matchList.isEmpty then zeroRect else
  let goodMatches := goodMatchesOf matchList m
  if goodMatches.length < 4 then zeroRect else
  let pointsSmall := goodMatches.map (fun mt => keypointsSmall.getD mt.queryIdx (0, 0))
  let pointsLarge := goodMatches.map (fun mt => keypointsLarge.getD mt.trainIdx (0, 0))
  match cv.findHomography (pointsSmall.zip pointsLarge) with
  | none => zeroRect
  | some hom =>
    let smallCorners : List Point :=
      [(0, 0), ((smallImage.cols : ℚ), 0), ((smallImage.cols : ℚ), (smallImage.rows : ℚ)),
        (0, (smallImage.rows : ℚ))]
    let br := boundingRect (smallCorners.map (perspectivePoint hom))
    if br.w ≤ 0 ∨ br.h ≤ 0 ∨ br.x < 0 ∨ br.y < 0 ∨
        (largeImage.cols : ℤ) < br.x + br.w ∨ (largeImage.rows : ℤ) < br.y + br.h then
      zeroRect
    else if isAspectRatioClose br smallImage (1 / 5) then br else zeroRect

/-! ### Correlation matcher (`IP::findImageInImage`) -/

/-- Modelled from the spec: `cvRound` — round half to even, as OpenCV
does. -/
def cvRound (x : ℚ) : ℤ :=
  if x - ⌊x⌋ < 1 / 2 then ⌊x⌋
  else if 1 / 2 < x - ⌊x⌋ then ⌊x⌋ + 1
  else if ⌊x⌋ % 2 = 0 then ⌊x⌋ else ⌊x⌋ + 1

/-- Modelled from the spec: the size `cv::resize` produces for scale
factors `(fx, fy) = (scale, scale)`: each dimension is rounded from
`dim * scale`. -/
def resizedDim (dim : ℕ) (scale : ℚ) : ℕ :=
  (cvRound ((dim : ℚ) * scale)).toNat

/-- Mean sample value of the template `t`. -/
def tmplMean (t : Image) : ℚ :=
  (∑ pp ∈ Finset.range t.cols ×ˢ Finset.range t.rows, t.px pp.1 pp.2) /
    ((t.cols * t.rows : ℕ) : ℚ)

/-- Mean sample value of the patch of `l` of `t`'s size at offset
`(x, y)`. -/
def patchMean (l t : Image) (x y : ℕ) : ℚ :=
  (∑ pp ∈ Finset.range t.cols ×ˢ Finset.range t.rows, l.px (x + pp.1) (y + pp.2)) /
    ((t.cols * t.rows : ℕ) : ℚ)

/-- Sum of squared mean-centered template samples. -/
def tmplVar (t : Image) : ℚ :=
  ∑ pp ∈ Finset.range t.cols ×ˢ Finset.range t.rows, (t.px pp.1 pp.2 - tmplMean t) ^ 2

/-- Sum of squared mean-centered patch samples at offset `(x, y)`. -/
def patchVar (l t : Image) (x y : ℕ) : ℚ :=
  ∑ pp ∈ Finset.range t.cols ×ˢ Finset.range t.rows,
    (l.px (x + pp.1) (y + pp.2) - patchMean l t x y) ^ 2

/-- Numerator of the TM_CCOEFF_NORMED correlation at offset `(x, y)`: inner
product of the mean-centered template with the mean-centered patch. -/
def ncorrNum (l t : Image) (x y : ℕ) : ℚ :=
  ∑ pp ∈ Finset.range t.cols ×ˢ Finset.range t.rows,
    (t.px pp.1 pp.2 - tmplMean t) * (l.px (x + pp.1) (y + pp.2) - patchMean l t x y)

/-- Denominator (squared) of the TM_CCOEFF_NORMED correlation at offset
`(x, y)`: the correlation value is `ncorrNum / √ncorrDen`. -/
def ncorrDen (l t : Image) (x y : ℕ) : ℚ :=
  tmplVar t * patchVar l t x y

/-- Exact, square-root-free comparison of two correlation values given as
`(num, den)` pairs denoting `num / √den` (`den ≥ 0`): sign comparison, then
comparison of squares cross-multiplied by the denominators. -/
def corrLtB (n1 d1 n2 d2 : ℚ) : Bool :=
  if n1 < 0 then
    if n2 < 0 then decide (n2 ^ 2 * d1 < n1 ^ 2 * d2) else true
  else
    if n2 < 0 then false else decide (n1 ^ 2 * d2 < n2 ^ 2 * d1)

/-- The valid template offsets, in the row-major order `cv::minMaxLoc`
scans them. -/
def offsets (l t : Image) : List (ℕ × ℕ) :=
  (List.range (l.rows - t.rows + 1)).flatMap
    (fun y => (List.range (l.cols - t.cols + 1)).map (fun x => (x, y)))

/-- One max-tracking step of `cv::minMaxLoc`: a strictly larger correlation
replaces the current best, so the first maximum in scan order wins. -/
def pickBetter (l t : Image) (best cur : ℕ × ℕ) : ℕ × ℕ :=
  if corrLtB (ncorrNum l t best.1 best.2) (ncorrDen l t best.1 best.2)
      (ncorrNum l t cur.1 cur.2) (ncorrDen l t cur.1 cur.2) then cur else best

/-- Modelled from the spec: `cv::matchTemplate(TM_CCOEFF_NORMED)` followed
by `cv::minMaxLoc` — the first offset, in scan order, attaining the maximal
normalized cross-correlation. -/
def maxLoc (l t : Image) : ℕ × ℕ :=
  match offsets l t with
  | [] => (0, 0)
  | o :: os => os.foldl (pickBetter l t) o

/-- Embeds `IP::findImageInImage`. -/
def findImageInImage (cv : CV) (largeImage smallImage : Image) (scale : ℚ)
    (grayscale : Bool) : Except String Rect :=
  if scale ≤ 0 ∨ 1 < scale then .error "Scale must be between 0 and 1." else
  let copies := scaleCopies cv largeImage smallImage scale
  let copies := if grayscale then (cv.cvtGray copies.1, cv.cvtGray copies.2) else copies
  let loc := maxLoc copies.1 copies.2
  let x := truncInt ((loc.1 : ℚ) / scale)
  let y := truncInt ((loc.2 : ℚ) / scale)
  let width := truncInt ((copies.2.cols : ℚ) / scale)
  let height := truncInt ((copies.2.rows : ℚ) / scale)
  let x := if x < 0 then 0
    else if (largeImage.cols : ℤ) < x + width then (largeImage.cols : ℤ) - width else x
  let y := if y < 0 then 0
    else if (largeImage.rows : ℤ) < y + height then (largeImage.rows : ℤ) - height else y
  .ok ⟨x, y, width, height⟩

/-! ### Concrete fixtures for instantiations -/

/-- The strict-correlation-order relation used by the `minMaxLoc` scan:
offset `o` compares strictly below offset `m` for template `t` over
haystack `l`. -/
def corrLtAt (l t : Image) (o m : ℕ × ℕ) : Prop :=
  corrLtB (ncorrNum l t o.1 o.2) (ncorrDen l t o.1 o.2)
    (ncorrNum l t m.1 m.2) (ncorrDen l t m.1 m.2) = true

/-- A trivial collaborator assignment (identity resize and grayscale, no
keypoints, no homography) for concrete instantiations whose conclusions do
not depend on the collaborators. -/
def cvId : CV :=
  ⟨fun i _ => i, fun i => i, fun _ _ => ([], []), fun _ => none⟩

/-- A collaborator whose resize obeys the `cv::resize` output-size law
(each dimension rounded from `dim * scale`) with all-zero pixel content. -/
def cvZeroResize : CV :=
  ⟨fun i s => ⟨resizedDim i.cols s, resizedDim i.rows s, fun _ _ => 0⟩,
   fun i => i, fun _ _ => ([], []), fun _ => none⟩

/-- A 15×15 all-zero image. -/
def img15 : Image := ⟨15, 15, fun _ _ => 0⟩

/-- A 2×1 needle with samples `[0, 2]`. -/
def needleA : Image := ⟨2, 1, fun i _ => if i = 0 then 0 else 2⟩

/-- A 4×1 haystack with samples `[0, 2, 0, 2]`: it contains exact copies of
`needleA` at offsets `(0,0)` and `(2,0)`. -/
def haystackTwoCopies : Image := ⟨4, 1, fun i _ => if i % 2 = 0 then 0 else 2⟩

/-- A 3×1 haystack with samples `[0, 2, 1]`: exactly one copy of `needleA`,
at offset `(0,0)`, and no other offset attaining correlation 1. -/
def haystackOneCopy : Image :=
  ⟨3, 1, fun i _ => if i = 0 then 0 else if i = 1 then 2 else 1⟩

/-! ### Theorems: keyphrase ROI parser -/

/-- Helper: the loop consumes tokens two at a time, so appending a single
token to an even-length token list leaves its outcome unchanged (the
unpaired trailing direction is never applied). -/
theorem applyPairs_append_single (size : Size) :
    ∀ (ts : List String), Even ts.length → ∀ (d : String) (roi : Rect),
      applyPairs size (ts ++ [d]) roi = applyPairs size ts roi
  | [], _, d, roi => rfl
  | [x], h, d, roi => by simp at h
  | x :: y :: rest, h, d, roi => by
    have hrest : Even rest.length := by
      simp only [List.length_cons] at h
      rcases h with ⟨k, hk⟩
      exact ⟨k - 1, by omega⟩
    simp only [List.cons_append, applyPairs]
    cases hpf : parseFraction y with
    | none => rfl
    | some frac =>
      split_ifs <;>
        first
          | rfl
          | exact applyPairs_append_single size rest hrest d _

/-- C7: `getRoiFromKeyphrase` returns the full-image rectangle for
`"default"` on any size, and on a 100×100 size returns `{0,0,50,100}` for
`"left 1/2"`, `{50,0,50,100}` for `"right 1/2"`, `{25,25,50,50}` for
`"center 1/2"`, and `{0,50,50,50}` for `"left 1/2 bottom 1/2"`. -/
theorem getRoiFromKeyphrase_examples :
    (∀ w h : ℤ, getRoiFromKeyphrase "default" ⟨w, h⟩ = .ok ⟨0, 0, w, h⟩) ∧
    getRoiFromKeyphrase "left 1/2" ⟨100, 100⟩ = .ok ⟨0, 0, 50, 100⟩ ∧
    getRoiFromKeyphrase "right 1/2" ⟨100, 100⟩ = .ok ⟨50, 0, 50, 100⟩ ∧
    getRoiFromKeyphrase "center 1/2" ⟨100, 100⟩ = .ok ⟨25, 25, 50, 50⟩ ∧
    getRoiFromKeyphrase "left 1/2 bottom 1/2" ⟨100, 100⟩ = .ok ⟨0, 50, 50, 50⟩ := by
  refine ⟨fun w h => rfl, ?_, ?_, ?_, ?_⟩ <;>
    · simp +decide [getRoiFromKeyphrase, tokenize, tokenizeAux, applyPairs, parseFraction,
        stod, truncInt, clampRoi, finishLoop]
      try norm_num
      try decide

/-- C8 (counterexample): two successive `"left 1/2"` tokens on a 100-wide
image yield width 50, not 25: each `left` step multiplies the ORIGINAL
image width by the fraction, not the current rectangle's width. -/
theorem roi_left_counterexample :
    getRoiFromKeyphrase "left 1/2 left 1/2" ⟨100, 100⟩ = .ok ⟨0, 0, 50, 100⟩ ∧
    (Rect.mk 0 0 50 100).w ≠ 25 := by
  constructor
  · simp +decide [getRoiFromKeyphrase, tokenize, tokenizeAux, applyPairs, parseFraction,
      stod, truncInt, clampRoi, finishLoop]
    try norm_num
    try decide
  · decide

/-- C8 (amended): a `"left f"` pair sets the width to the original image
width times `f` (truncated), leaves `x`, `y` and the current height
unchanged, and hands the rest of the tokens the updated rectangle; hence
two successive `"left 1/2"` tokens on a 100-wide image yield width 50. -/
theorem roi_left_amended :
    (∀ (size : Size) (f : String) (frac : ℚ) (rest : List String) (roi : Rect),
      parseFraction f = some frac →
      applyPairs size ("left" :: f :: rest) roi =
        applyPairs size rest ⟨roi.x, roi.y, truncInt ((size.w : ℚ) * frac), roi.h⟩) ∧
    getRoiFromKeyphrase "left 1/2 left 1/2" ⟨100, 100⟩ = .ok ⟨0, 0, 50, 100⟩ := by
  constructor
  · intro size f frac rest roi hf
    simp +decide [applyPairs, hf]
  · simp +decide [getRoiFromKeyphrase, tokenize, tokenizeAux, applyPairs, parseFraction,
      stod, truncInt, clampRoi, finishLoop]
    try norm_num
    try decide

theorem roi_left_witness :
    parseFraction "1/2" = some (1 / 2) ∧
    applyPairs ⟨100, 100⟩ ["left", "1/2"] ⟨0, 0, 100, 100⟩ =
      applyPairs ⟨100, 100⟩ [] ⟨0, 0, truncInt ((100 : ℚ) * (1 / 2)), 100⟩ := by
  refine ⟨?_, roi_left_amended.1 ⟨100, 100⟩ "1/2" (1 / 2) [] ⟨0, 0, 100, 100⟩ ?_⟩ <;>
    · simp +decide [parseFraction, stod]
      try norm_num
      try decide

/-- C9 (counterexample): on the keyphrase `"left abc"` the non-numeric
fraction token makes `std::stod` throw and the exception escapes
`getRoiFromKeyphrase`; the full-image rectangle `{0,0,100,100}` is NOT
returned. -/
theorem roi_malformed_counterexample :
    getRoiFromKeyphrase "left abc" ⟨100, 100⟩ = .error "stod" ∧
    (Except.error "stod" : Except String Rect) ≠ .ok ⟨0, 0, 100, 100⟩ := by
  constructor
  · simp +decide [getRoiFromKeyphrase, tokenize, tokenizeAux, applyPairs, parseFraction,
      stod, truncInt, clampRoi, finishLoop]
  · simp

/-- C9 (amended): a pair whose direction token is unrecognized but whose
fraction token parses aborts the loop and returns the full-image rectangle
immediately, ignoring all later tokens; a fraction token on which
`std::stod` performs no conversion instead raises (the exception escapes),
so only direction-token malformations degrade to the full-image rect. -/
theorem roi_malformed_amended :
    (∀ (size : Size) (d f : String) (frac : ℚ) (rest : List String) (roi : Rect),
      parseFraction f = some frac →
      d ≠ "right" → d ≠ "left" → d ≠ "bottom" → d ≠ "top" → d ≠ "center" →
      applyPairs size (d :: f :: rest) roi = .aborted ⟨0, 0, size.w, size.h⟩) ∧
    (∀ (size : Size) (d f : String) (rest : List String) (roi : Rect),
      parseFraction f = none →
      applyPairs size (d :: f :: rest) roi = .raised "stod") ∧
    getRoiFromKeyphrase "weird 1/2 left 1/2" ⟨100, 100⟩ = .ok ⟨0, 0, 100, 100⟩ := by
  refine ⟨?_, ?_, ?_⟩
  · intro size d f frac rest roi hf h1 h2 h3 h4 h5
    simp [applyPairs, hf, h1, h2, h3, h4, h5]
  · intro size d f rest roi hf
    simp [applyPairs, hf]
  · simp +decide [getRoiFromKeyphrase, tokenize, tokenizeAux, applyPairs, parseFraction,
      stod, truncInt, clampRoi, finishLoop]
    try norm_num
    try decide

theorem roi_malformed_witness :
    parseFraction "1/2" = some (1 / 2) ∧
    applyPairs ⟨100, 100⟩ ["weird", "1/2"] ⟨0, 0, 100, 100⟩ = .aborted ⟨0, 0, 100, 100⟩ := by
  refine ⟨?_, roi_malformed_amended.1 ⟨100, 100⟩ "weird" "1/2" (1 / 2) [] ⟨0, 0, 100, 100⟩
    ?_ (by decide) (by decide) (by decide) (by decide) (by decide)⟩ <;>
    · simp +decide [parseFraction, stod]
      try norm_num
      try decide

/-- C10: on a keyphrase whose whitespace-delimited token count is odd, the
final unpaired direction token is silently ignored: the result is exactly
what processing the preceding complete pairs (then clamping) produces, with
no error and no reset to the full-image rectangle. -/
theorem roi_odd_tokens_ignored (size : Size) (phrase : String) (ts : List String)
    (d : String) (hp : phrase ≠ "default") (ht : tokenize phrase = ts ++ [d])
    (he : Even ts.length) :
    getRoiFromKeyphrase phrase size =
      finishLoop size (applyPairs size ts ⟨0, 0, size.w, size.h⟩) := by
  rw [getRoiFromKeyphrase, if_neg hp, ht, applyPairs_append_single size ts he d]

theorem roi_odd_tokens_ignored_witness :
    ("left 1/2 bottom" ≠ "default") ∧
    getRoiFromKeyphrase "left 1/2 bottom" ⟨100, 100⟩ =
      finishLoop ⟨100, 100⟩ (applyPairs ⟨100, 100⟩ ["left", "1/2"] ⟨0, 0, 100, 100⟩) :=
  ⟨by decide, roi_odd_tokens_ignored ⟨100, 100⟩ "left 1/2 bottom" ["left", "1/2"] "bottom"
    (by decide) (by decide) (by decide)⟩

/-! ### Theorems: ORB feature matching -/

/-- C3: for every scale with `scale ≤ 0` or `scale > 1`, both
`findImageInImage` and the extract-internally form of `findImageInImageORB`
raise the invalid-argument failure (they throw rather than clamping or
returning a rectangle). -/
theorem scale_guard_throws (cv : CV) (largeImage smallImage : Image) (scale : ℚ)
    (grayscale debug : Bool) (minMatchScore : ℤ) (hs : scale ≤ 0 ∨ 1 < scale) :
    findImageInImage cv largeImage smallImage scale grayscale =
      .error "Scale must be between 0 and 1." ∧
    findImageInImageORB cv largeImage smallImage minMatchScore scale debug =
      .error "Scale must be between 0 and 1." := by
  constructor
  · simp only [findImageInImage]
    rw [if_pos hs]
  · simp only [findImageInImageORB]
    rw [if_pos hs]

theorem scale_guard_throws_witness :
    ((2 : ℚ) ≤ 0 ∨ 1 < (2 : ℚ)) ∧
    findImageInImage cvId img15 img15 2 false = .error "Scale must be between 0 and 1." ∧
    findImageInImageORB cvId img15 img15 230 2 false =
      .error "Scale must be between 0 and 1." :=
  ⟨by norm_num, scale_guard_throws cvId img15 img15 2 false false 230 (by norm_num)⟩

/-- C4: `minMatchScore` is clamped into `[0, 256]`, and a match is accepted
into the good set iff its distance is at most `minDistance + minMatchScore`
(clamped): the `/256*256` scaling in the threshold is a no-op, the band is
additive and unscaled.  Both `findImageInImageORB` overloads build their
good set with exactly this `goodMatchesOf (clampScore _)` computation. -/
theorem goodMatches_threshold_iff (minMatchScore : ℤ) (matchList : List DMatch)
    (m : DMatch) :
    (0 ≤ clampScore minMatchScore ∧ clampScore minMatchScore ≤ 256) ∧
    (m ∈ goodMatchesOf matchList (clampScore minMatchScore) ↔
      m ∈ matchList ∧
        (m.dist : ℚ) ≤ minDistOf matchList + (clampScore minMatchScore : ℚ)) := by
  refine ⟨⟨?_, ?_⟩, ?_⟩
  · simp only [clampScore]
    omega
  · simp only [clampScore]
    omega
  · simp only [goodMatchesOf, List.mem_filter, decide_eq_true_eq]
    have hq : ((clampScore minMatchScore : ℚ) / 256 * 256) = (clampScore minMatchScore : ℚ) := by
      field_simp
    rw [hq]

/-- C5: whenever the good-match set (built by the shared
`goodMatchesOf (clampScore _)` computation from the cross-check matches)
has fewer than 4 elements, both `findImageInImageORB` forms return the zero
rectangle — the homography oracle is universally quantified, so no
homography fit can influence the result. -/
theorem too_few_good_matches_zero (cv : CV) (largeImage smallImage : Image)
    (keypointsLarge : List Point) (descriptorsLarge : List Desc)
    (keypointsSmall : List Point) (descriptorsSmall : List Desc)
    (minMatchScore : ℤ) (scale : ℚ) (debug : Bool)
    (hs1 : 0 < scale) (hs2 : scale ≤ 1)
    (hpre : (goodMatchesOf (bfMatchCross descriptorsSmall descriptorsLarge)
      (clampScore minMatchScore)).length < 4)
    (hint : (goodMatchesOf (bfMatchCross
        (computeKeypointsAndDescriptors cv
          (scaleCopies cv largeImage smallImage scale).2).2
        (computeKeypointsAndDescriptors cv
          (scaleCopies cv largeImage smallImage scale).1).2)
        (clampScore minMatchScore)).length < 4) :
    findImageInImageORBPre cv largeImage smallImage keypointsLarge descriptorsLarge
      keypointsSmall descriptorsSmall minMatchScore debug = zeroRect ∧
    findImageInImageORB cv largeImage smallImage minMatchScore scale debug =
      .ok zeroRect := by
  have hguard : ¬(scale ≤ 0 ∨ 1 < scale) := by
    push_neg
    exact ⟨hs1, hs2⟩
  constructor
  · simp only [findImageInImageORBPre]
    split_ifs <;> first | rfl | omega
  · simp only [findImageInImageORB]
    split_ifs <;> first | rfl | omega

theorem too_few_good_matches_zero_witness :
    ((0 : ℚ) < 1 ∧ (1 : ℚ) ≤ 1) ∧
    findImageInImageORBPre cvId img15 img15 [] [] [] [] 230 false = zeroRect ∧
    findImageInImageORB cvId img15 img15 230 1 false = .ok zeroRect :=
  ⟨⟨by norm_num, le_refl 1⟩,
    too_few_good_matches_zero cvId img15 img15 [] [] [] [] 230 1 false
      (by norm_num) (le_refl 1) (by decide) (by decide)⟩

/-- C6: the precomputed-descriptor form only ever returns the zero
rectangle or a rectangle that is non-degenerate and fully inside the
haystack bounds; the extract-internally form (beyond the scale guard)
returns the zero rectangle or a rectangle passing the aspect-ratio check —
it performs no bounds check. -/
theorem orb_result_invariant (cv : CV) (largeImage smallImage : Image)
    (keypointsLarge : List Point) (descriptorsLarge : List Desc)
    (keypointsSmall : List Point) (descriptorsSmall : List Desc)
    (minMatchScore : ℤ) (scale : ℚ) (debug : Bool) :
    (findImageInImageORBPre cv largeImage smallImage keypointsLarge descriptorsLarge
        keypointsSmall descriptorsSmall minMatchScore debug = zeroRect ∨
      (0 < (findImageInImageORBPre cv largeImage smallImage keypointsLarge
          descriptorsLarge keypointsSmall descriptorsSmall minMatchScore debug).w ∧
        0 < (findImageInImageORBPre cv largeImage smallImage keypointsLarge
          descriptorsLarge keypointsSmall descriptorsSmall minMatchScore debug).h ∧
        0 ≤ (findImageInImageORBPre cv largeImage smallImage keypointsLarge
          descriptorsLarge keypointsSmall descriptorsSmall minMatchScore debug).x ∧
        0 ≤ (findImageInImageORBPre cv largeImage smallImage keypointsLarge
          descriptorsLarge keypointsSmall descriptorsSmall minMatchScore debug).y ∧
        (findImageInImageORBPre cv largeImage smallImage keypointsLarge
            descriptorsLarge keypointsSmall descriptorsSmall minMatchScore debug).x +
          (findImageInImageORBPre cv largeImage smallImage keypointsLarge
            descriptorsLarge keypointsSmall descriptorsSmall minMatchScore debug).w ≤
          (largeImage.cols : ℤ) ∧
        (findImageInImageORBPre cv largeImage smallImage keypointsLarge
            descriptorsLarge keypointsSmall descriptorsSmall minMatchScore debug).y +
          (findImageInImageORBPre cv largeImage smallImage keypointsLarge
            descriptorsLarge keypointsSmall descriptorsSmall minMatchScore debug).h ≤
          (largeImage.rows : ℤ))) ∧
    ((∃ e, findImageInImageORB cv largeImage smallImage minMatchScore scale debug =
        .error e) ∨
      findImageInImageORB cv largeImage smallImage minMatchScore scale debug =
        .ok zeroRect ∨
      (∃ r, findImageInImageORB cv largeImage smallImage minMatchScore scale debug =
          .ok r ∧ isAspectRatioClose r smallImage (1 / 5) = true)) := by
  constructor
  · simp only [findImageInImageORBPre]
    repeat' split
    all_goals try exact Or.inl rfl
    rename_i hbounds _
    right
    push_neg at hbounds
    refine ⟨by omega, by omega, by omega, by omega, by omega, by omega⟩
  · simp only [findImageInImageORB]
    repeat' split
    all_goals try exact Or.inl ⟨_, rfl⟩
    all_goals try exact Or.inr (Or.inl rfl)
    rename_i haspect
    exact Or.inr (Or.inr ⟨_, rfl, haspect⟩)

/-! ### Theorems: correlation matcher -/

/-- C2 (counterexample): with scale = 1/10 on a 15×15 haystack and a 15×15
needle, both resized to 2×2 (the `cv::resize` size law rounds 1.5 up to 2),
the rescaled width `int(2 / 0.1) = 20` exceeds the haystack width, so the
clamp shifts the origin to `15 - 20 = -5 < 0`: the returned rectangle
leaves the original haystack bounds. -/
theorem findImageInImage_bounds_counterexample :
    findImageInImage cvZeroResize img15 img15 (1 / 10) false = .ok ⟨-5, -5, 20, 20⟩ ∧
    (-5 : ℤ) < 0 := by
  have hsize : resizedDim 15 (1 / 10) = 2 := by
    norm_num [resizedDim, cvRound]
    rfl
  have hr : cvZeroResize.resize img15 (1 / 10) = (⟨2, 2, fun _ _ => 0⟩ : Image) := by
    simp only [cvZeroResize, img15]
    rw [hsize]
  have hcopies : scaleCopies cvZeroResize img15 img15 (1 / 10) =
      ((⟨2, 2, fun _ _ => 0⟩ : Image), (⟨2, 2, fun _ _ => 0⟩ : Image)) := by
    rw [scaleCopies, if_pos (by norm_num : ¬(1 / 10 : ℚ) = 1), hr]
  have hloc : maxLoc (⟨2, 2, fun _ _ => 0⟩ : Image) ⟨2, 2, fun _ _ => 0⟩ = (0, 0) := rfl
  refine ⟨?_, by norm_num⟩
  rw [findImageInImage, if_neg (by norm_num : ¬((1 / 10 : ℚ) ≤ 0 ∨ 1 < (1 / 10 : ℚ)))]
  simp only [Bool.false_eq_true, if_false, hcopies, hloc]
  norm_num [truncInt, img15]

/-- C2 (amended): for every collaborator assignment, haystack, needle and
scale in (0, 1], the rectangle `findImageInImage` returns lies fully inside
the original haystack bounds PROVIDED the rescaled needle dimensions
`int(smallCopy.cols / scale)` and `int(smallCopy.rows / scale)` do not
exceed the original haystack dimensions (always the case at scale = 1);
without that proviso the clamp can shift the origin negative. -/
theorem findImageInImage_bounds_amended (cv : CV) (largeImage smallImage : Image)
    (scale : ℚ) (hs1 : 0 < scale) (hs2 : scale ≤ 1)
    (hw : truncInt (((scaleCopies cv largeImage smallImage scale).2.cols : ℚ) / scale) ≤
      (largeImage.cols : ℤ))
    (hh : truncInt (((scaleCopies cv largeImage smallImage scale).2.rows : ℚ) / scale) ≤
      (largeImage.rows : ℤ)) :
    ∃ r, findImageInImage cv largeImage smallImage scale false = .ok r ∧
      0 ≤ r.x ∧ 0 ≤ r.y ∧
      r.x + r.w ≤ (largeImage.cols : ℤ) ∧ r.y + r.h ≤ (largeImage.rows : ℤ) := by
  have hguard : ¬(scale ≤ 0 ∨ 1 < scale) := by
    push_neg
    exact ⟨hs1, hs2⟩
  simp only [findImageInImage, hguard, if_false, Bool.false_eq_true]
  refine ⟨_, rfl, ?_, ?_, ?_, ?_⟩ <;> · split_ifs <;> (dsimp only; omega)

theorem findImageInImage_bounds_amended_witness :
    ((0 : ℚ) < 1 ∧ (1 : ℚ) ≤ 1 ∧
      truncInt (((scaleCopies cvId img15 img15 1).2.cols : ℚ) / 1) ≤ (img15.cols : ℤ)) ∧
    ∃ r, findImageInImage cvId img15 img15 1 false = .ok r ∧
      0 ≤ r.x ∧ 0 ≤ r.y ∧
      r.x + r.w ≤ (img15.cols : ℤ) ∧ r.y + r.h ≤ (img15.rows : ℤ) :=
  ⟨⟨by norm_num, le_refl 1, by norm_num [scaleCopies, img15, truncInt]⟩,
    findImageInImage_bounds_amended cvId img15 img15 1 (by norm_num) (le_refl 1)
      (by norm_num [scaleCopies, img15, truncInt])
      (by norm_num [scaleCopies, img15, truncInt])⟩

/-- Helper: the square-root-free correlation order is asymmetric. -/
theorem corrLtB_asymm {n1 d1 n2 d2 : ℚ} (h : corrLtB n1 d1 n2 d2 = true) :
    corrLtB n2 d2 n1 d1 = false := by
  simp only [corrLtB] at h ⊢
  split_ifs at h ⊢ <;> simp_all <;> linarith

/-- Helper: the minMaxLoc fold returns `m` once `m` is scanned (or already
held) and every scanned offset is `m` or strictly below it. -/
theorem foldl_pickBetter (l t : Image) (m : ℕ × ℕ) :
    ∀ (os : List (ℕ × ℕ)) (best : ℕ × ℕ),
      (best = m ∨ corrLtAt l t best m) →
      (∀ o ∈ os, o = m ∨ corrLtAt l t o m) →
      (m ∈ os ∨ best = m) →
      os.foldl (pickBetter l t) best = m
  | [], best, _, _, hm => by
    rcases hm with hm | hm
    · exact absurd hm (List.not_mem_nil m)
    · exact hm
  | o :: os, best, hb, ho, hm => by
    have hohead := ho o (List.mem_cons_self o os)
    have hotail : ∀ x ∈ os, x = m ∨ corrLtAt l t x m :=
      fun x hx => ho x (List.mem_cons_of_mem o hx)
    have hb' : pickBetter l t best o = m ∨ corrLtAt l t (pickBetter l t best o) m := by
      unfold pickBetter
      split_ifs with hc
      · exact hohead
      · exact hb
    have hm' : m ∈ os ∨ pickBetter l t best o = m := by
      rcases hm with hmem | hbm
      · rcases List.mem_cons.mp hmem with hOm | hmos
        · right
          unfold pickBetter
          rw [← hOm]
          split_ifs with hc
          · rfl
          · rcases hb with hbm | hlt
            · exact hbm
            · exact absurd hlt hc
        · exact Or.inl hmos
      · right
        subst hbm
        rcases hohead with hOm | hlt
        · subst hOm
          unfold pickBetter
          split_ifs <;> rfl
        · unfold pickBetter
          rw [if_neg]
          rw [corrLtAt] at hlt
          intro hcontra
          rw [corrLtB_asymm hcontra] at hlt
          exact Bool.false_ne_true hlt
    exact foldl_pickBetter l t m os (pickBetter l t best o) hb' hotail hm'

/-- Helper: if `m` is a valid offset and every other valid offset compares
strictly below it, the minMaxLoc scan lands on `m` exactly. -/
theorem maxLoc_eq (l t : Image) (m : ℕ × ℕ) (hmem : m ∈ offsets l t)
    (hlt : ∀ o ∈ offsets l t, o ≠ m → corrLtAt l t o m) :
    maxLoc l t = m := by
  unfold maxLoc
  rcases hoff : offsets l t with _ | ⟨o, os⟩
  · rw [hoff] at hmem
    exact absurd hmem (List.not_mem_nil m)
  · rw [hoff] at hmem hlt
    have hall : ∀ x ∈ o :: os, x = m ∨ corrLtAt l t x m := by
      intro x hx
      by_cases hxm : x = m
      · exact Or.inl hxm
      · exact Or.inr (hlt x hx hxm)
    apply foldl_pickBetter l t m os o
    · exact hall o (List.mem_cons_self o os)
    · exact fun x hx => hall x (List.mem_cons_of_mem o hx)
    · rcases List.mem_cons.mp hmem with hOm | h
      · exact Or.inr hOm.symm
      · exact Or.inl h

/-- Helper: the patch under an exact copy has the template's mean. -/
theorem patchMean_copy (l t : Image) (x0 y0 : ℕ)
    (hcopy : ∀ i < t.cols, ∀ j < t.rows, l.px (x0 + i) (y0 + j) = t.px i j) :
    patchMean l t x0 y0 = tmplMean t := by
  unfold patchMean tmplMean
  congr 1
  apply Finset.sum_congr rfl
  intro pp hpp
  rw [Finset.mem_product, Finset.mem_range, Finset.mem_range] at hpp
  exact hcopy pp.1 hpp.1 pp.2 hpp.2

/-- Helper: the correlation numerator at an exact copy equals the template
variance sum. -/
theorem ncorrNum_copy (l t : Image) (x0 y0 : ℕ)
    (hcopy : ∀ i < t.cols, ∀ j < t.rows, l.px (x0 + i) (y0 + j) = t.px i j) :
    ncorrNum l t x0 y0 = tmplVar t := by
  unfold ncorrNum tmplVar
  apply Finset.sum_congr rfl
  intro pp hpp
  rw [Finset.mem_product, Finset.mem_range, Finset.mem_range] at hpp
  rw [patchMean_copy l t x0 y0 hcopy, hcopy pp.1 hpp.1 pp.2 hpp.2]
  ring

/-- Helper: the patch variance sum at an exact copy equals the template
variance sum. -/
theorem patchVar_copy (l t : Image) (x0 y0 : ℕ)
    (hcopy : ∀ i < t.cols, ∀ j < t.rows, l.px (x0 + i) (y0 + j) = t.px i j) :
    patchVar l t x0 y0 = tmplVar t := by
  unfold patchVar tmplVar
  apply Finset.sum_congr rfl
  intro pp hpp
  rw [Finset.mem_product, Finset.mem_range, Finset.mem_range] at hpp
  rw [patchMean_copy l t x0 y0 hcopy, hcopy pp.1 hpp.1 pp.2 hpp.2]

/-- Helper: the template variance sum is nonnegative. -/
theorem tmplVar_nonneg (t : Image) : 0 ≤ tmplVar t :=
  Finset.sum_nonneg fun _ _ => sq_nonneg _

/-- Helper: any offset whose correlation numerator is negative, or whose
squared numerator stays strictly below the Cauchy–Schwarz bound (i.e. whose
correlation is defined and below 1), compares strictly below an
exact-copy offset. -/
theorem corrLt_of_not_one (l t : Image) (x0 y0 : ℕ) (o : ℕ × ℕ)
    (hcopy : ∀ i < t.cols, ∀ j < t.rows, l.px (x0 + i) (y0 + j) = t.px i j)
    (hnc : tmplVar t ≠ 0)
    (h1 : ¬(0 ≤ ncorrNum l t o.1 o.2 ∧
      ncorrNum l t o.1 o.2 ^ 2 = tmplVar t * patchVar l t o.1 o.2)) :
    corrLtAt l t o (x0, y0) := by
  have htv : 0 < tmplVar t := lt_of_le_of_ne (tmplVar_nonneg t) (Ne.symm hnc)
  have hnum : ncorrNum l t (x0, y0).1 (x0, y0).2 = tmplVar t := ncorrNum_copy l t x0 y0 hcopy
  have hden : ncorrDen l t (x0, y0).1 (x0, y0).2 = tmplVar t * tmplVar t := by
    unfold ncorrDen
    rw [patchVar_copy l t x0 y0 hcopy]
  rw [corrLtAt, hnum, hden, corrLtB]
  by_cases hn : ncorrNum l t o.1 o.2 < 0
  · rw [if_pos hn, if_neg (not_lt.mpr htv.le)]
  · rw [if_neg hn, if_neg (not_lt.mpr htv.le), decide_eq_true_eq]
    have hcs : ncorrNum l t o.1 o.2 ^ 2 ≤ tmplVar t * patchVar l t o.1 o.2 := by
      unfold ncorrNum tmplVar patchVar
      exact Finset.sum_mul_sq_le_sq_mul_sq _ _ _
    have hne : ncorrNum l t o.1 o.2 ^ 2 ≠ tmplVar t * patchVar l t o.1 o.2 :=
      fun hcontra => h1 ⟨not_lt.mp hn, hcontra⟩
    have hlt : ncorrNum l t o.1 o.2 ^ 2 < tmplVar t * patchVar l t o.1 o.2 :=
      lt_of_le_of_ne hcs hne
    unfold ncorrDen
    nlinarith [mul_pos htv htv]

/-- Helper: positive template dimensions and containment give a valid
offset. -/
theorem mem_offsets (l t : Image) (x0 y0 : ℕ) (hc : 0 < t.cols) (hr : 0 < t.rows)
    (hx : x0 + t.cols ≤ l.cols) (hy : y0 + t.rows ≤ l.rows) :
    (x0, y0) ∈ offsets l t := by
  unfold offsets
  rw [List.mem_flatMap]
  refine ⟨y0, ?_, ?_⟩
  · rw [List.mem_range]
    omega
  · rw [List.mem_map]
    exact ⟨x0, by rw [List.mem_range]; omega, rfl⟩

/-- Helper: a nonzero template variance sum forces positive template
dimensions. -/
theorem tmpl_pos_of_var_ne (t : Image) (hnc : tmplVar t ≠ 0) :
    0 < t.cols ∧ 0 < t.rows := by
  constructor
  · by_contra hcon
    push_neg at hcon
    have : t.cols = 0 := by omega
    apply hnc
    unfold tmplVar
    rw [this]
    simp
  · by_contra hcon
    push_neg at hcon
    have : t.rows = 0 := by omega
    apply hnc
    unfold tmplVar
    rw [this]
    simp

/-- C1 (amended): if the haystack contains an exact, unscaled copy of the
needle at offset `(x0, y0)`, the needle is non-constant (nonzero centered
variance sum), and every other valid offset has normalized correlation
defined and strictly below 1 (numerator negative, or squared numerator
strictly below the Cauchy–Schwarz bound), then
`findImageInImage(haystack, needle, scale = 1.0)` returns exactly
`{x0, y0, needle.width, needle.height}`. -/
theorem findImageInImage_exact_copy_amended (cv : CV) (l t : Image) (x0 y0 : ℕ)
    (hx : x0 + t.cols ≤ l.cols) (hy : y0 + t.rows ≤ l.rows)
    (hcopy : ∀ i < t.cols, ∀ j < t.rows, l.px (x0 + i) (y0 + j) = t.px i j)
    (hnc : tmplVar t ≠ 0)
    (hone : ∀ o ∈ offsets l t, o ≠ (x0, y0) →
      ¬(0 ≤ ncorrNum l t o.1 o.2 ∧
        ncorrNum l t o.1 o.2 ^ 2 = tmplVar t * patchVar l t o.1 o.2)) :
    findImageInImage cv l t 1 false =
      .ok ⟨(x0 : ℤ), (y0 : ℤ), (t.cols : ℤ), (t.rows : ℤ)⟩ := by
  obtain ⟨hc, hr⟩ := tmpl_pos_of_var_ne t hnc
  have hml : maxLoc l t = (x0, y0) :=
    maxLoc_eq l t (x0, y0) (mem_offsets l t x0 y0 hc hr hx hy)
      (fun o ho hne => corrLt_of_not_one l t x0 y0 o hcopy hnc (hone o ho hne))
  have hsc : scaleCopies cv l t 1 = (l, t) := by
    rw [scaleCopies, if_neg]
    simp
  have htr : ∀ n : ℕ, truncInt ((n : ℚ) / 1) = (n : ℤ) := by
    intro n
    rw [div_one, truncInt, if_neg (not_lt.mpr (by positivity))]
    exact Int.floor_natCast n
  rw [findImageInImage, if_neg (by norm_num : ¬((1 : ℚ) ≤ 0 ∨ 1 < (1 : ℚ)))]
  simp only [hsc, Bool.false_eq_true, if_false, hml, htr]
  rw [if_neg (not_lt.mpr (Int.natCast_nonneg x0)),
    if_neg (by exact_mod_cast not_lt.mpr hx),
    if_neg (not_lt.mpr (Int.natCast_nonneg y0)),
    if_neg (by exact_mod_cast not_lt.mpr hy)]

theorem findImageInImage_exact_copy_witness :
    ((0 + needleA.cols ≤ haystackOneCopy.cols) ∧ tmplVar needleA ≠ 0) ∧
    findImageInImage cvId haystackOneCopy needleA 1 false =
      .ok ⟨((0 : ℕ) : ℤ), ((0 : ℕ) : ℤ), (needleA.cols : ℤ), (needleA.rows : ℤ)⟩ := by
  have hnc : tmplVar needleA ≠ 0 := by
    norm_num [tmplVar, tmplMean, needleA, Finset.sum_product, Finset.sum_range_succ,
      Finset.sum_range_zero]
  have hcopy : ∀ i < needleA.cols, ∀ j < needleA.rows,
      haystackOneCopy.px (0 + i) (0 + j) = needleA.px i j := by
    intro i hi j hj
    simp only [needleA, haystackOneCopy] at hi hj ⊢
    interval_cases i <;> interval_cases j <;> norm_num
  refine ⟨⟨by decide, hnc⟩, findImageInImage_exact_copy_amended cvId haystackOneCopy needleA
    0 0 (by decide) (by decide) hcopy hnc ?_⟩
  intro o ho hne
  have hoff : offsets haystackOneCopy needleA = [(0, 0), (1, 0)] := rfl
  rw [hoff] at ho
  simp only [List.mem_cons, List.mem_singleton, List.not_mem_nil, or_false] at ho
  rcases ho with ho | ho
  · exact absurd ho hne
  · subst ho
    intro hcontra
    have hval : ncorrNum haystackOneCopy needleA 1 0 = -1 := by
      norm_num [ncorrNum, patchMean, tmplMean, needleA, haystackOneCopy,
        Finset.sum_product, Finset.sum_range_succ, Finset.sum_range_zero]
    rw [hval] at hcontra
    norm_num at hcontra

/-- C1 (counterexample): the haystack `[0, 2, 0, 2]` contains exact copies
of the needle `[0, 2]` at offsets `(0,0)` and `(2,0)`; the scan returns the
first maximal-correlation offset `(0,0)`, so the claim instantiated at the
copy at `(2,0)` is false. -/
theorem findImageInImage_exact_copy_counterexample :
    (∀ i < needleA.cols, ∀ j < needleA.rows,
      haystackTwoCopies.px (2 + i) (0 + j) = needleA.px i j) ∧
    findImageInImage cvId haystackTwoCopies needleA 1 false = .ok ⟨0, 0, 2, 1⟩ ∧
    Rect.mk 0 0 2 1 ≠ ⟨2, 0, 2, 1⟩ := by
  have hn00 : ncorrNum haystackTwoCopies needleA 0 0 = 2 := by
    norm_num [ncorrNum, patchMean, tmplMean, needleA, haystackTwoCopies,
      Finset.sum_product, Finset.sum_range_succ, Finset.sum_range_zero]
  have hn10 : ncorrNum haystackTwoCopies needleA 1 0 = -2 := by
    norm_num [ncorrNum, patchMean, tmplMean, needleA, haystackTwoCopies,
      Finset.sum_product, Finset.sum_range_succ, Finset.sum_range_zero]
  have hn20 : ncorrNum haystackTwoCopies needleA 2 0 = 2 := by
    norm_num [ncorrNum, patchMean, tmplMean, needleA, haystackTwoCopies,
      Finset.sum_product, Finset.sum_range_succ, Finset.sum_range_zero]
  have hd00 : ncorrDen haystackTwoCopies needleA 0 0 = 4 := by
    norm_num [ncorrDen, tmplVar, patchVar, patchMean, tmplMean, needleA,
      haystackTwoCopies, Finset.sum_product, Finset.sum_range_succ, Finset.sum_range_zero]
  have hd10 : ncorrDen haystackTwoCopies needleA 1 0 = 4 := by
    norm_num [ncorrDen, tmplVar, patchVar, patchMean, tmplMean, needleA,
      haystackTwoCopies, Finset.sum_product, Finset.sum_range_succ, Finset.sum_range_zero]
  have hd20 : ncorrDen haystackTwoCopies needleA 2 0 = 4 := by
    norm_num [ncorrDen, tmplVar, patchVar, patchMean, tmplMean, needleA,
      haystackTwoCopies, Finset.sum_product, Finset.sum_range_succ, Finset.sum_range_zero]
  have hpb1 : pickBetter haystackTwoCopies needleA (0, 0) (1, 0) = (0, 0) := by
    rw [pickBetter]
    norm_num [hn00, hd00, hn10, hd10, corrLtB]
  have hpb2 : pickBetter haystackTwoCopies needleA (0, 0) (2, 0) = (0, 0) := by
    rw [pickBetter]
    norm_num [hn00, hd00, hn20, hd20, corrLtB]
  have hoff : offsets haystackTwoCopies needleA = [(0, 0), (1, 0), (2, 0)] := rfl
  have hml : maxLoc haystackTwoCopies needleA = (0, 0) := by
    rw [maxLoc, hoff]
    simp only [List.foldl_cons, List.foldl_nil, hpb1, hpb2]
  have hsc : scaleCopies cvId haystackTwoCopies needleA 1 =
      (haystackTwoCopies, needleA) := by
    rw [scaleCopies, if_neg]
    simp
  refine ⟨?_, ?_, by decide⟩
  · intro i hi j hj
    simp only [needleA, haystackTwoCopies] at hi hj ⊢
    interval_cases i <;> interval_cases j <;> norm_num
  · rw [findImageInImage, if_neg (by norm_num : ¬((1 : ℚ) ≤ 0 ∨ 1 < (1 : ℚ)))]
    simp only [hsc, Bool.false_eq_true, if_false, hml]
    norm_num [truncInt, needleA, haystackTwoCopies]

end ImageProccessing
